import Mathlib

/-!
Verification of the credential-rotation / freshness-cache controller of the
insta-hardware-counter repository.

The definitions below are a shallow embedding of the Python sources:
  * `scripts/instagram_api.py`   (CredentialManager, get_loader,
    refresh_metrics_data, get_latest_data)
  * `scripts/get_followers.py`   (get_instagram_metrics, store_metrics_in_db)
  * `scripts/db/instagram_db.py` (InstagramDatabase)

External effects are made explicit:
  * wall-clock time is a `Nat` (seconds) passed in by the caller;
  * `random.choice` is modelled by an arbitrary index `pick` into the
    candidate list (`random.choice` on an empty list raises `IndexError`,
    modelled as `none`);
  * network outcomes (login success, `Profile.from_username` result) are an
    `Oracle` indexed by the attempt number;
  * Python exceptions that the code catches are explicit error values; the
    modelled functions are total exactly because the Python code catches
    every exception on these paths.
-/

namespace InstaHW

/-- `@dataclass InstagramCredential` (instagram_api.py line 46).
Python dataclass equality compares all three fields. -/
structure InstagramCredential where
  email : String
  username : String
  password : String
deriving DecidableEq

/-- `CredentialManager.ROTATION_INTERVAL = 30 * 60` (instagram_api.py line 53). -/
def ROTATION_INTERVAL : Nat := 30 * 60

/-- `CACHE_FRESHNESS_THRESHOLD = 15 * 60` (instagram_api.py line 33). -/
def CACHE_FRESHNESS_THRESHOLD : Nat := 15 * 60

/-- The mutable state of a `CredentialManager` (instagram_api.py lines 55-62):
the loaded credential list, `current_credential` (initially `None`) and
`last_rotation_time` (initially `0`). -/
structure CredentialManager where
  credentials : List InstagramCredential
  current_credential : Option InstagramCredential
  last_rotation_time : Nat
deriving DecidableEq

/-- The candidate list built by `_rotate_credential` (instagram_api.py lines
103-107): if more than one credential is loaded, every credential `c` with
`c != self.current_credential` (note: when `current_credential` is `None`
every credential is kept, since a dataclass never equals `None`); otherwise
the full list. -/
def availableCredentials (cm : CredentialManager) : List InstagramCredential :=
  if cm.credentials.length > 1 then
    cm.credentials.filter (fun c => decide (some c ≠ cm.current_credential))
  else
    cm.credentials

/-- `CredentialManager._rotate_credential` (instagram_api.py lines 94-112).
`pick` models `random.choice`: the chosen index into the candidate list.
`random.choice` on an empty candidate list raises `IndexError`, modelled by
`none` (the state is unchanged in that case because the exception is raised
before any assignment).  Returns the new state and the Python return value. -/
def rotateCredential (cm : CredentialManager) (force : Bool) (now pick : Nat) :
    Option (CredentialManager × Bool) :=
  if !force && now - cm.last_rotation_time < ROTATION_INTERVAL then
    some (cm, false)
  else
    let avail := availableCredentials cm
    match avail.get? (pick % avail.length) with
    | none => none
    | some c =>
        some ({ cm with current_credential := some c, last_rotation_time := now }, true)

/-- Result of `CredentialManager.get_current_credentials`
(instagram_api.py lines 114-118).  The two failure modes are kept distinct:
`emptyChoiceError` is the `IndexError` from `random.choice([])` inside
`_rotate_credential`; `noneDereference` is the `AttributeError` that would be
raised by `self.current_credential.username` when `current_credential` is
`None`. -/
inductive CredResult where
  | ok (cm : CredentialManager) (username password : String)
  | emptyChoiceError (cm : CredentialManager)
  | noneDereference (cm : CredentialManager)
deriving DecidableEq

/-- `CredentialManager.get_current_credentials` (instagram_api.py lines
114-118): a non-forced `_rotate_credential()` followed by reading
`self.current_credential.username / .password`. -/
def get_current_credentials (cm : CredentialManager) (now pick : Nat) : CredResult :=
  match rotateCredential cm false now pick with
  | none => .emptyChoiceError cm
  | some (cm2, _) =>
      match cm2.current_credential with
      | none => .noneDereference cm2
      | some c => .ok cm2 c.username c.password

/-- `CredentialManager.__init__` (instagram_api.py lines 55-62) for an
already-parsed credential list: `_load_credentials` raises `ValueError` when
no valid credential was parsed (line 87), modelled by `none`; otherwise
`_rotate_credential(force=True)` runs on the initial state. -/
def initCredentialManager (creds : List InstagramCredential) (now pick : Nat) :
    Option CredentialManager :=
  if creds.isEmpty then none
  else
    match rotateCredential ⟨creds, none, 0⟩ true now pick with
    | none => none
    | some (cm, _) => some cm

/-- The module-level loader globals of instagram_api.py (lines 42-43):
`_loader` and `_loader_session_username` are collapsed into one optional
username (the loader object itself is opaque; it exists iff the username is
set, which is how lines 146 and 181-182 maintain them). -/
structure LoaderState where
  loaderUser : Option String
deriving DecidableEq

/-- Result of `get_loader` (instagram_api.py lines 127-189): either an
authenticated loader whose `context.username` is `user`, or `None`. -/
inductive LoaderResult where
  | ok (cm : CredentialManager) (ls : LoaderState) (user : String)
  | fail (cm : CredentialManager) (ls : LoaderState)
deriving DecidableEq

/-- `get_loader` (instagram_api.py lines 127-189).  `authOk` is the outcome of
the session-restore / login step for this call (lines 162-183): `true` when a
valid saved session loads or `loader.login` succeeds, `false` when login
fails.  Any exception (including the `IndexError` from rotation) is caught at
lines 185-189, which reset both globals and return `None`. -/
def get_loader (cm : CredentialManager) (ls : LoaderState) (force_new : Bool)
    (now pick : Nat) (authOk : Bool) : LoaderResult :=
  match get_current_credentials cm now pick with
  | .emptyChoiceError cm2 => .fail cm2 ⟨none⟩
  | .noneDereference cm2 => .fail cm2 ⟨none⟩
  | .ok cm2 user _password =>
      if !force_new && ls.loaderUser == some user then
        .ok cm2 ls user
      else if authOk then
        .ok cm2 ⟨some user⟩ user
      else
        .fail cm2 ⟨none⟩

/-- A row of the `instagram_metrics` table (instagram_db.py lines 27-36).
All metric columns are nullable. -/
structure MetricsRow where
  username : String
  followers_count : Option Nat
  posts_count : Option Nat
  recent_posts_count : Option Nat
  collection_date : String
deriving DecidableEq

/-- `InstagramDatabase.store_metrics` (instagram_db.py lines 39-65): a single
`INSERT` (the class never issues `UPDATE` or `DELETE`, so the table is an
append-only log).  Returns the new table and `lastrowid`. -/
def store_metrics (db : List MetricsRow) (username : String)
    (followers_count posts_count recent_posts_count : Option Nat)
    (timestamp : String) : List MetricsRow × Nat :=
  (db ++ [⟨username, followers_count, posts_count, recent_posts_count, timestamp⟩],
   db.length + 1)

/-- Bytewise comparison of two byte sequences: SQLite's default BINARY
collation, which `ORDER BY collection_date DESC` in
`InstagramDatabase.get_latest_metrics` (instagram_db.py line 82) uses on the
TEXT column. -/
def memcmpLt : List Nat → List Nat → Bool
  | [], [] => false
  | [], _ :: _ => true
  | _ :: _, [] => false
  | a :: as, b :: bs => if a < b then true else if b < a then false else memcmpLt as bs

/-- The byte sequence a string contributes to a BINARY-collation comparison
(all strings compared by the program are ASCII timestamps, whose UTF-8 bytes
are the code points). -/
def strBytes (s : String) : List Nat :=
  s.data.map Char.toNat

/-- BINARY-collation order on strings. -/
def strLt (s t : String) : Bool :=
  memcmpLt (strBytes s) (strBytes t)

/-- One step of scanning for the row with the maximal `collection_date`. -/
def latestStep (acc : Option MetricsRow) (r : MetricsRow) : Option MetricsRow :=
  match acc with
  | none => some r
  | some best =>
      if strLt best.collection_date r.collection_date then some r else some best

/-- `InstagramDatabase.get_latest_metrics` (instagram_db.py lines 67-87):
`SELECT ... WHERE username = ? ORDER BY collection_date DESC LIMIT 1`,
i.e. among the rows of the given username, a row whose `collection_date` is
maximal in the BINARY collation (on a tie, the earliest inserted row). -/
def get_latest_metrics (db : List MetricsRow) (username : String) : Option MetricsRow :=
  (db.filter (fun r => r.username == username)).foldl latestStep none

/-- Outcome of the single `instaloader.Profile.from_username` call made by
`get_instagram_metrics` (get_followers.py line 108), this program's
`fetch_profile`: success with follower and post counts, or one of the three
caught exception classes (lines 121-131). -/
inductive FetchOutcome where
  | success (followers posts : Nat)
  | connError
  | notFound
  | otherError
deriving DecidableEq

/-- Per-attempt outcomes of the external world, indexed by the retry counter
of `refresh_metrics_data`: `authOk k` is the login/session outcome of the
`get_loader` call of attempt `k`; `fetch k` the profile-fetch outcome;
`pick k` the `random.choice` index should a rotation happen; `storeOk k`
whether the database insert succeeds (store_metrics_in_db catches its own
exceptions, get_followers.py lines 216-218). -/
structure Oracle where
  authOk : Nat → Bool
  fetch : Nat → FetchOutcome
  pick : Nat → Nat
  storeOk : Nat → Bool

/-- The JSON-able dictionaries built by instagram_api.py, one constructor per
dict literal: `refreshed` (lines 234-241, a successful refresh; its
`recent_posts_count` is literally `None`), `cached` (lines 301-309 with the
fallback `note`, lines 315-322 without), and `failure` (the `error: True`
dicts of lines 211-214 and 251-254). -/
inductive MetricsResponse where
  | refreshed (username : String) (followers_count posts_count : Nat)
      (recent_posts_count : Option Nat) (last_updated : String)
  | cached (username : String)
      (followers_count posts_count recent_posts_count : Option Nat)
      (last_updated : String) (note : Option String)
  | failure (message : String)
deriving DecidableEq

/-- The state threaded through a refresh: credential manager, loader globals
and the database table. -/
structure RefreshState where
  cm : CredentialManager
  ls : LoaderState
  db : List MetricsRow
deriving DecidableEq

/-- Result of `refresh_metrics_data`, instrumented: the returned
`(result_dict, success_flag)` pair, the final state, the number of
`Profile.from_username` (fetch_profile) calls made, and the login username of
the credential used by each attempt that obtained a loader. -/
structure RefreshOutcome where
  response : MetricsResponse
  success : Bool
  st : RefreshState
  fetchCalls : Nat
  usedCreds : List String
deriving DecidableEq

/-- The `while retry_count < max_retries` loop of `refresh_metrics_data`
(instagram_api.py lines 205-254).  Each iteration:
`get_loader(force_new=(retry_count > 0))`; if it returns `None`, return the
authentication-failure dict immediately (lines 209-214).  Otherwise
`get_instagram_metrics(..., retries=1, loader=loader)` makes exactly one
`Profile.from_username` call (get_followers.py lines 105-131): on success it
appends one row with `recent_posts_count=None` (get_followers.py lines
198-215) and the refresh returns the success dict whose
`recent_posts_count` is `None` (lines 233-241); every failure outcome
(connection error, nonexistent profile, any other exception) yields
`metrics = None`, increments `retry_count` and continues (lines 225-230,
243-247).  When the loop exhausts, the retries-exhausted dict is returned
(lines 249-254). -/
def refreshLoop (username : String) (o : Oracle) (now : Nat) (nowStr : String)
    (max_retries retry_count : Nat) (st : RefreshState)
    (fetchCalls : Nat) (used : List String) : RefreshOutcome :=
  if h : retry_count < max_retries then
    match get_loader st.cm st.ls (decide (0 < retry_count)) now
        (o.pick retry_count) (o.authOk retry_count) with
    | .fail cm2 ls2 =>
        ⟨.failure "Authentication failed, could not retrieve metrics", false,
         ⟨cm2, ls2, st.db⟩, fetchCalls, used⟩
    | .ok cm2 ls2 user =>
        match o.fetch retry_count with
        | .success f p =>
            let db2 :=
              if o.storeOk retry_count then
                (store_metrics st.db username (some f) (some p) none nowStr).1
              else st.db
            ⟨.refreshed username f p none nowStr, true, ⟨cm2, ls2, db2⟩,
             fetchCalls + 1, used ++ [user]⟩
        | _ =>
            refreshLoop username o now nowStr max_retries (retry_count + 1)
              ⟨cm2, ls2, st.db⟩ (fetchCalls + 1) (used ++ [user])
  else
    ⟨.failure ("Could not retrieve metrics for " ++ username ++ " after "
        ++ toString max_retries ++ " attempts"), false, st, fetchCalls, used⟩
termination_by max_retries - retry_count
decreasing_by omega

/-- `refresh_metrics_data` (instagram_api.py lines 191-254):
`max_retries = min(3, len(credential_manager.credentials))` (line 203), then
the retry loop starting at `retry_count = 0`. -/
def refresh_metrics_data (username : String) (o : Oracle) (now : Nat)
    (nowStr : String) (st : RefreshState) : RefreshOutcome :=
  refreshLoop username o now nowStr (min 3 st.cm.credentials.length) 0 st 0 []

/-- The freshness decision of `get_latest_data` (instagram_api.py lines
268-288): `needs_refresh` starts `True` and becomes `False` exactly when a
cached record exists, its `collection_date` parses, and the age is strictly
below `CACHE_FRESHNESS_THRESHOLD`.  `parseTs` models
`datetime.strptime(.., '%Y-%m-%d %H:%M:%S')` converted to epoch seconds,
with `none` for a parse failure (the exception caught at lines 285-286). -/
def needsRefresh (latest : Option MetricsRow) (parseTs : String → Option Int)
    (nowEpoch : Int) : Bool :=
  match latest with
  | none => true
  | some r =>
      match parseTs r.collection_date with
      | none => true
      | some t =>
          if nowEpoch - t < (CACHE_FRESHNESS_THRESHOLD : Int) then false else true

/-- The spec's FreshnessGate classification vocabulary.  The three labels
name the three branches of the freshness decision in `get_latest_data`:
no record (log line 288), fresh record (lines 280-282), and stale or
unparseable record (lines 283-286). -/
inductive Freshness where
  | ABSENT
  | FRESH
  | STALE
deriving DecidableEq

/-- The three-way branch structure of the freshness decision of
`get_latest_data` (instagram_api.py lines 268-288), labelled with the spec's
FreshnessGate vocabulary: `ABSENT` when no record exists, `FRESH` when the
record parses and is strictly younger than the threshold, `STALE` otherwise
(including a `collection_date` that fails to parse). -/
def classify (latest : Option MetricsRow) (parseTs : String → Option Int)
    (nowEpoch : Int) : Freshness :=
  match latest with
  | none => .ABSENT
  | some r =>
      match parseTs r.collection_date with
      | none => .STALE
      | some t =>
          if nowEpoch - t < (CACHE_FRESHNESS_THRESHOLD : Int) then .FRESH else .STALE

/-- Result of `get_latest_data`, instrumented like `RefreshOutcome`. -/
structure QueryOutcome where
  response : MetricsResponse
  st : RefreshState
  fetchCalls : Nat
deriving DecidableEq

/-- The note string attached when a refresh fails and cached data is served
(instagram_api.py line 308). -/
def fallbackNote : String := "Data refresh failed, showing cached data"

/-- `get_latest_data` (instagram_api.py lines 256-325): read the latest
record, decide freshness, refresh when needed; on a failed refresh fall back
to the cached record with the `note` field (lines 299-309), else return the
refresh's error dict (line 312); when fresh, return the cached record without
a note (lines 315-322).  The `none`-and-fresh branch is unreachable: a
missing record always sets `needs_refresh` (the Python code would hit an
unbound local there). -/
def get_latest_data (username : String) (parseTs : String → Option Int)
    (nowEpoch : Int) (o : Oracle) (now : Nat) (nowStr : String)
    (cm : CredentialManager) (ls : LoaderState) (db : List MetricsRow) :
    QueryOutcome :=
  let latest := get_latest_metrics db username
  if needsRefresh latest parseTs nowEpoch then
    let out := refresh_metrics_data username o now nowStr ⟨cm, ls, db⟩
    if out.success then
      ⟨out.response, out.st, out.fetchCalls⟩
    else
      match latest with
      | some r =>
          ⟨.cached username r.followers_count r.posts_count r.recent_posts_count
              r.collection_date (some fallbackNote), out.st, out.fetchCalls⟩
      | none => ⟨out.response, out.st, out.fetchCalls⟩
  else
    match latest with
    | some r =>
        ⟨.cached username r.followers_count r.posts_count r.recent_posts_count
            r.collection_date none, ⟨cm, ls, db⟩, 0⟩
    | none => ⟨.failure "unreachable: fresh with no record", ⟨cm, ls, db⟩, 0⟩

/-- A calendar timestamp as produced by `datetime.datetime.now()` and
formatted with `strftime('%Y-%m-%d %H:%M:%S')` (get_followers.py line 200,
instagram_api.py line 233). -/
structure DateTime where
  year : Nat
  month : Nat
  day : Nat
  hour : Nat
  minute : Nat
  second : Nat
deriving DecidableEq

/-- Field ranges guaranteed by Python's `datetime` type (it validates on
construction; `%Y` renders at most four digits for such values). -/
def ValidDT (d : DateTime) : Prop :=
  d.year ≤ 9999 ∧ 1 ≤ d.month ∧ d.month ≤ 12 ∧ 1 ≤ d.day ∧ d.day ≤ 31 ∧
    d.hour ≤ 23 ∧ d.minute ≤ 59 ∧ d.second ≤ 59

instance (d : DateTime) : Decidable (ValidDT d) := by
  unfold ValidDT; infer_instance

/-- Chronological (lexicographic) order on calendar timestamps. -/
def dtLt (a b : DateTime) : Prop :=
  a.year < b.year ∨ (a.year = b.year ∧ (a.month < b.month ∨ (a.month = b.month ∧
    (a.day < b.day ∨ (a.day = b.day ∧ (a.hour < b.hour ∨ (a.hour = b.hour ∧
    (a.minute < b.minute ∨ (a.minute = b.minute ∧ a.second < b.second)))))))))

instance (a b : DateTime) : Decidable (dtLt a b) := by
  unfold dtLt; infer_instance

/-- The two ASCII bytes of a zero-padded two-digit decimal field
(`%m`, `%d`, `%H`, `%M`, `%S`); 48 is the code of the digit zero. -/
def pad2 (n : Nat) : List Nat := [48 + n / 10, 48 + n % 10]

/-- The four ASCII bytes of a zero-padded four-digit decimal field (`%Y`):
the high two digits followed by the low two digits. -/
def pad4 (n : Nat) : List Nat := pad2 (n / 100) ++ pad2 (n % 100)

/-- The UTF-8 bytes of `strftime('%Y-%m-%d %H:%M:%S')`; 45, 32 and 58 are the
codes of the hyphen, space and colon separators. -/
def fmtBytes (d : DateTime) : List Nat :=
  pad4 d.year ++ 45 :: (pad2 d.month ++ 45 :: (pad2 d.day ++ 32 ::
    (pad2 d.hour ++ 58 :: (pad2 d.minute ++ 58 :: pad2 d.second))))

/-- `strftime('%Y-%m-%d %H:%M:%S')` as a string. -/
def fmtDT (d : DateTime) : String :=
  ⟨(fmtBytes d).map Char.ofNat⟩

/-- Concrete instances used by the counterexamples and witnesses below. -/

def credA : InstagramCredential := ⟨"a@example.com", "alice", "pwA"⟩

def credB : InstagramCredential := ⟨"b@example.com", "bob", "pwB"⟩

/-- A two-credential manager whose last rotation happened at time 1000
(e.g. just initialized). -/
def cmAB : CredentialManager := ⟨[credA, credB], some credA, 1000⟩

/-- A manager holding the same credential twice (two identical rows in the
credentials CSV): dataclass equality makes the two entries equal. -/
def cmDup : CredentialManager := ⟨[credA, credA], some credA, 0⟩

/-- Oracle whose every fetch attempt raises
`instaloader.exceptions.ProfileNotExistsException`. -/
def oracleNotFound : Oracle :=
  ⟨fun _ => true, fun _ => .notFound, fun _ => 0, fun _ => true⟩

/-- Oracle whose every fetch attempt raises
`instaloader.exceptions.ConnectionException`. -/
def oracleConnErr : Oracle :=
  ⟨fun _ => true, fun _ => .connError, fun _ => 0, fun _ => true⟩

/-- Oracle whose every fetch attempt succeeds with fixed counts. -/
def oracleSuccess : Oracle :=
  ⟨fun _ => true, fun _ => .success 1000 50, fun _ => 0, fun _ => true⟩

def ts0 : String := "2025-01-01 00:00:00"

/-- A timestamp-parse function for witnesses: recognizes exactly `ts0`,
mapping it to epoch second 0. -/
def parseTs0 (s : String) : Option Int :=
  if s = ts0 then some 0 else none

def rowX : MetricsRow := ⟨"x", some 111, some 22, none, ts0⟩

def rowA : MetricsRow := ⟨"x", some 100, some 10, none, "2024-01-01 00:00:00"⟩

def rowB : MetricsRow := ⟨"x", some 200, some 20, some 3, "2024-06-01 12:00:00"⟩

/-- Projection used to state that `get_current_credentials` returned a
(username, password) pair rather than raising. -/
def CredResult.isOk : CredResult → Bool
  | .ok _ _ _ => true
  | _ => false

/-- Projection: did `get_current_credentials` fail by dereferencing a missing
(`None`) current credential? -/
def CredResult.isNoneDeref : CredResult → Bool
  | .noneDereference _ => true
  | _ => false



theorem refreshLoop_spec (username : String) (o : Oracle) (now : Nat) (nowStr : String)
    (max_retries : Nat) (n : Nat) :
    ∀ rc st fc used, max_retries - rc ≤ n →
      (refreshLoop username o now nowStr max_retries rc st fc used).fetchCalls
          ≤ fc + (max_retries - rc)
      ∧ ((refreshLoop username o now nowStr max_retries rc st fc used).st.db = st.db
          ∨ ∃ f p, (refreshLoop username o now nowStr max_retries rc st fc used).st.db
              = st.db ++ [⟨username, some f, some p, none, nowStr⟩])
      ∧ ((refreshLoop username o now nowStr max_retries rc st fc used).success = true →
          ∃ f p, (refreshLoop username o now nowStr max_retries rc st fc used).response
              = .refreshed username f p none nowStr) := by
  induction n with
  | zero =>
    intro rc st fc used hle
    have hnot : ¬ rc < max_retries := by omega
    rw [refreshLoop]
    simp [hnot]
  | succ n ih =>
    intro rc st fc used hle
    by_cases h : rc < max_retries
    · rw [refreshLoop]
      simp only [dif_pos h]
      cases hL : get_loader st.cm st.ls (decide (0 < rc)) now (o.pick rc) (o.authOk rc) with
      | fail cm2 ls2 => simp
      | ok cm2 ls2 user =>
        cases hF : o.fetch rc with
        | success f p =>
          refine ⟨by simp; omega, ?_, ?_⟩
          · by_cases hs : o.storeOk rc = true
            · right
              exact ⟨f, p, by simp [hs, store_metrics]⟩
            · left
              simp at hs
              simp [hs, store_metrics]
          · intro _
            exact ⟨f, p, by simp⟩
        | connError =>
          have := ih (rc + 1) ⟨cm2, ls2, st.db⟩ (fc + 1) (used ++ [user]) (by omega)
          refine ⟨by have := this.1; simp; omega, by have := this.2.1; simpa using this, ?_⟩
          · have := this.2.2; simpa using this
        | notFound =>
          have := ih (rc + 1) ⟨cm2, ls2, st.db⟩ (fc + 1) (used ++ [user]) (by omega)
          refine ⟨by have := this.1; simp; omega, by have := this.2.1; simpa using this, ?_⟩
          · have := this.2.2; simpa using this
        | otherError =>
          have := ih (rc + 1) ⟨cm2, ls2, st.db⟩ (fc + 1) (used ++ [user]) (by omega)
          refine ⟨by have := this.1; simp; omega, by have := this.2.1; simpa using this, ?_⟩
          · have := this.2.2; simpa using this
    · rw [refreshLoop]
      simp [h]

theorem get_loader_ok (cm : CredentialManager) (ls : LoaderState) (force : Bool)
    (now pick : Nat) (c : InstagramCredential)
    (hdue : now - cm.last_rotation_time < ROTATION_INTERVAL)
    (hcur : cm.current_credential = some c) :
    ∃ ls', get_loader cm ls force now pick true = .ok cm ls' c.username := by
  by_cases h : (!force && ls.loaderUser == some c.username) = true
  · refine ⟨ls, ?_⟩
    rw [get_loader, get_current_credentials, rotateCredential]
    simp [hdue, hcur, h]
  · refine ⟨⟨some c.username⟩, ?_⟩
    rw [get_loader, get_current_credentials, rotateCredential]
    simp [hdue, hcur, h]

theorem refreshLoop_notFound (username : String) (o : Oracle) (now : Nat) (nowStr : String)
    (max_retries : Nat) (cm : CredentialManager) (c : InstagramCredential)
    (hauth : ∀ k, o.authOk k = true) (hfetch : ∀ k, o.fetch k = .notFound)
    (hdue : now - cm.last_rotation_time < ROTATION_INTERVAL)
    (hcur : cm.current_credential = some c) (n : Nat) :
    ∀ rc ls db fc used, max_retries - rc ≤ n →
      (refreshLoop username o now nowStr max_retries rc ⟨cm, ls, db⟩ fc used).response
          = .failure ("Could not retrieve metrics for " ++ username ++ " after "
              ++ toString max_retries ++ " attempts")
      ∧ (refreshLoop username o now nowStr max_retries rc ⟨cm, ls, db⟩ fc used).success = false
      ∧ (refreshLoop username o now nowStr max_retries rc ⟨cm, ls, db⟩ fc used).fetchCalls
          = fc + (max_retries - rc)
      ∧ (refreshLoop username o now nowStr max_retries rc ⟨cm, ls, db⟩ fc used).st.db = db := by
  induction n with
  | zero =>
    intro rc ls db fc used hle
    have hnot : ¬ rc < max_retries := by omega
    rw [refreshLoop]
    simp [hnot]
    omega
  | succ n ih =>
    intro rc ls db fc used hle
    by_cases h : rc < max_retries
    · rw [refreshLoop]
      simp only [dif_pos h]
      obtain ⟨ls', hL⟩ := get_loader_ok cm ls (decide (0 < rc)) now (o.pick rc) c hdue hcur
      simp only [hauth]
      rw [hL, hfetch rc]
      have := ih (rc + 1) ls' db (fc + 1) (used ++ [c.username]) (by omega)
      refine ⟨this.1, this.2.1, by rw [this.2.2.1]; omega, this.2.2.2⟩
    · rw [refreshLoop]
      have hz : max_retries - rc = 0 := by omega
      simp [h, hz]



/-- Claim C1: a single `refresh_metrics_data` call makes at most
`min(3, credential_count)` calls to `fetch_profile`
(`instaloader.Profile.from_username`), counting the fetch attempt made inside
`get_instagram_metrics` on every retry iteration. -/
theorem c1_refresh_fetch_bound (username : String) (o : Oracle) (now : Nat)
    (nowStr : String) (st : RefreshState) :
    (refresh_metrics_data username o now nowStr st).fetchCalls
      ≤ min 3 st.cm.credentials.length := by
  have h := (refreshLoop_spec username o now nowStr (min 3 st.cm.credentials.length)
      (min 3 st.cm.credentials.length) 0 st 0 [] (by omega)).1
  simpa [refresh_metrics_data] using h

/-- Claim C2 (failing input): with the two distinct credentials alice and bob
in the pool, the manager freshly rotated (so the 30-minute interval has not
elapsed), and every fetch failing with a connection error, both attempts of
`refresh_metrics_data` use alice: `get_loader(force_new=True)` rebuilds the
Instaloader instance but `get_current_credentials` only rotates after the
interval, so the retry is NOT forced onto a different credential, contrary to
the claim (and to the code's own "Rotating to next account and retrying" log
message). -/
theorem c2_retry_reuses_credential :
    (refresh_metrics_data "subj" oracleConnErr 1000 ts0
        ⟨cmAB, ⟨none⟩, []⟩).usedCreds = [credA.username, credA.username]
    ∧ cmAB.credentials = [credA, credB] ∧ credA ≠ credB := by
  refine ⟨?_, rfl, by decide⟩
  simp [refresh_metrics_data, refreshLoop, get_loader, get_current_credentials,
        rotateCredential, availableCredentials, oracleConnErr, cmAB, credA, credB,
        ROTATION_INTERVAL, ts0]

/-- Claim C3 (counterexample): with two credentials and every fetch reporting
that the profile does not exist, `refresh_metrics_data` makes TWO fetch calls
(so the nonexistent subject IS retried, with a rotated loader), and an empty
store yields exactly the same generic response as a connection-error run:
there is no immediate `SubjectNotFound` failure and no distinguishable
`NotFoundError`. -/
theorem c3_counterexample :
    (refresh_metrics_data "x" oracleNotFound 1000 ts0 ⟨cmAB, ⟨none⟩, []⟩).fetchCalls = 2
    ∧ (refresh_metrics_data "x" oracleNotFound 1000 ts0 ⟨cmAB, ⟨none⟩, []⟩).success = false
    ∧ (get_latest_data "x" parseTs0 0 oracleNotFound 1000 ts0 cmAB ⟨none⟩ []).response
        = (get_latest_data "x" parseTs0 0 oracleConnErr 1000 ts0 cmAB ⟨none⟩ []).response := by
  refine ⟨?_, ?_, ?_⟩ <;>
    simp [get_latest_data, get_latest_metrics, needsRefresh, refresh_metrics_data,
          refreshLoop, get_loader, get_current_credentials, rotateCredential,
          availableCredentials, oracleNotFound, oracleConnErr, cmAB, credA, credB,
          ROTATION_INTERVAL, ts0, parseTs0]

/-- Claim C3 (amended): when `fetch_profile` reports that the subject does not
exist, `get_instagram_metrics` returns `None` and `refresh_metrics_data`
treats the outcome like any other failed attempt: it keeps retrying until all
`min(3, credential_count)` attempts are exhausted and then fails with the
generic retries-exhausted message; `get_metrics` on an empty store returns
that same generic error response, with no distinguishable not-found error.
(Stated for a manager whose rotation interval has not elapsed, with every
login succeeding, i.e. the failures are the fetches themselves.) -/
theorem c3_amended (username : String) (o : Oracle) (now : Nat) (nowStr : String)
    (cm : CredentialManager) (ls : LoaderState) (db : List MetricsRow)
    (c : InstagramCredential) (parseTs : String → Option Int) (nowEpoch : Int)
    (hauth : ∀ k, o.authOk k = true) (hfetch : ∀ k, o.fetch k = .notFound)
    (hdue : now - cm.last_rotation_time < ROTATION_INTERVAL)
    (hcur : cm.current_credential = some c) :
    (refresh_metrics_data username o now nowStr ⟨cm, ls, db⟩).response
        = .failure ("Could not retrieve metrics for " ++ username ++ " after "
            ++ toString (min 3 cm.credentials.length) ++ " attempts")
    ∧ (refresh_metrics_data username o now nowStr ⟨cm, ls, db⟩).success = false
    ∧ (refresh_metrics_data username o now nowStr ⟨cm, ls, db⟩).fetchCalls
        = min 3 cm.credentials.length
    ∧ (get_latest_data username parseTs nowEpoch o now nowStr cm ls []).response
        = .failure ("Could not retrieve metrics for " ++ username ++ " after "
            ++ toString (min 3 cm.credentials.length) ++ " attempts") := by
  have h := refreshLoop_notFound username o now nowStr (min 3 cm.credentials.length)
      cm c hauth hfetch hdue hcur (min 3 cm.credentials.length) 0 ls db 0 [] (by omega)
  have h2 := refreshLoop_notFound username o now nowStr (min 3 cm.credentials.length)
      cm c hauth hfetch hdue hcur (min 3 cm.credentials.length) 0 ls [] 0 [] (by omega)
  refine ⟨by simpa [refresh_metrics_data] using h.1,
          by simpa [refresh_metrics_data] using h.2.1,
          by have := h.2.2.1; simp [refresh_metrics_data] at this ⊢; omega, ?_⟩
  rw [get_latest_data]
  simp only [get_latest_metrics, List.filter_nil, List.foldl_nil, needsRefresh, if_true]
  have hs := h2.2.1
  have hr := h2.1
  simp only [refresh_metrics_data] at hs hr ⊢
  rw [hs]
  simp [hr]

/-- Claim C3 (amended) witness: concrete two-credential run. -/
theorem c3_amended_witness :
    (refresh_metrics_data "x" oracleNotFound 1000 ts0 ⟨cmAB, ⟨none⟩, []⟩).success = false
    ∧ (refresh_metrics_data "x" oracleNotFound 1000 ts0 ⟨cmAB, ⟨none⟩, []⟩).fetchCalls
        = min 3 cmAB.credentials.length := by
  have h := c3_amended "x" oracleNotFound 1000 ts0 cmAB ⟨none⟩ [] credA parseTs0 0
      (fun _ => rfl) (fun _ => rfl) (by decide) rfl
  exact ⟨h.2.1, h.2.2.1⟩

/-- Claim C10: every row appended to the store by the primary refresh path has
`recent_posts_count = None` (get_followers.py line 209), and every successful
`refresh_metrics_data` response carries `recent_posts_count = None`
(instagram_api.py line 239). -/
theorem c10_recent_posts_none (username : String) (o : Oracle) (now : Nat)
    (nowStr : String) (st : RefreshState) :
    (∀ r ∈ (refresh_metrics_data username o now nowStr st).st.db,
        r ∈ st.db ∨ r.recent_posts_count = none)
    ∧ ((refresh_metrics_data username o now nowStr st).success = true →
        ∃ f p, (refresh_metrics_data username o now nowStr st).response
            = MetricsResponse.refreshed username f p none nowStr) := by
  have h := refreshLoop_spec username o now nowStr (min 3 st.cm.credentials.length)
      (min 3 st.cm.credentials.length) 0 st 0 [] (by omega)
  constructor
  · intro r hr
    rcases (by simpa [refresh_metrics_data] using h.2.1 :
        (refresh_metrics_data username o now nowStr st).st.db = st.db
        ∨ ∃ f p, (refresh_metrics_data username o now nowStr st).st.db
            = st.db ++ [⟨username, some f, some p, none, nowStr⟩]) with hdb | ⟨f, p, hdb⟩
    · left; rwa [hdb] at hr
    · rw [hdb] at hr
      rcases List.mem_append.mp hr with hl | hnew
      · left; exact hl
      · right
        have : r = ⟨username, some f, some p, none, nowStr⟩ := List.mem_singleton.mp hnew
        rw [this]
  · simpa [refresh_metrics_data] using h.2.2

/-- Claim C10 witness: a concrete successful refresh on an empty store. -/
theorem c10_witness :
    (∀ r ∈ (refresh_metrics_data "x" oracleSuccess 1000 ts0
        ⟨cmAB, ⟨none⟩, []⟩).st.db, r ∈ ([] : List MetricsRow) ∨ r.recent_posts_count = none)
    ∧ ((refresh_metrics_data "x" oracleSuccess 1000 ts0 ⟨cmAB, ⟨none⟩, []⟩).success = true →
        ∃ f p, (refresh_metrics_data "x" oracleSuccess 1000 ts0 ⟨cmAB, ⟨none⟩, []⟩).response
            = MetricsResponse.refreshed "x" f p none ts0) :=
  c10_recent_posts_none "x" oracleSuccess 1000 ts0 ⟨cmAB, ⟨none⟩, []⟩

/-- Claim C5: the freshness decision of `get_latest_data` classifies a missing
record as ABSENT, a record strictly younger than `CACHE_FRESHNESS_THRESHOLD`
as FRESH, and any other record (including one whose `collection_date` fails
to parse) as STALE; the refresh trigger fires exactly when the
classification is not FRESH, so an unparseable timestamp forces a refresh
instead of failing the request. -/
theorem c5_freshness_classification (parseTs : String → Option Int) (nowEpoch : Int)
    (r : MetricsRow) :
    classify none parseTs nowEpoch = .ABSENT
    ∧ (∀ t, parseTs r.collection_date = some t →
        (classify (some r) parseTs nowEpoch = .FRESH ↔
          nowEpoch - t < (CACHE_FRESHNESS_THRESHOLD : Int)))
    ∧ (∀ t, parseTs r.collection_date = some t →
        ¬ nowEpoch - t < (CACHE_FRESHNESS_THRESHOLD : Int) →
        classify (some r) parseTs nowEpoch = .STALE)
    ∧ (parseTs r.collection_date = none → classify (some r) parseTs nowEpoch = .STALE)
    ∧ (needsRefresh (some r) parseTs nowEpoch = true ↔
        classify (some r) parseTs nowEpoch ≠ .FRESH)
    ∧ needsRefresh none parseTs nowEpoch = true := by
  refine ⟨rfl, ?_, ?_, ?_, ?_, rfl⟩
  · intro t ht
    rw [classify, ht]
    by_cases h : nowEpoch - t < (CACHE_FRESHNESS_THRESHOLD : Int)
    · simp [h]
    · simp [h]
  · intro t ht h
    rw [classify, ht]
    simp [h]
  · intro ht
    rw [classify, ht]
  · rw [classify, needsRefresh]
    cases ht : parseTs r.collection_date with
    | none => simp
    | some t =>
      by_cases h : nowEpoch - t < (CACHE_FRESHNESS_THRESHOLD : Int)
      · simp [h]
      · simp [h]

/-- Claim C5 witness: an unparseable record is STALE and forces a refresh;
no record is ABSENT; a fresh record is FRESH. -/
theorem c5_witness :
    classify (some rowA) parseTs0 0 = .STALE
    ∧ classify none parseTs0 0 = .ABSENT
    ∧ needsRefresh (some rowA) parseTs0 0 = true
    ∧ classify (some rowX) parseTs0 0 = .FRESH := by
  have h := c5_freshness_classification parseTs0 0 rowA
  refine ⟨h.2.2.2.1 (by decide), h.1, ?_, ?_⟩
  · rw [h.2.2.2.2.1, h.2.2.2.1 (by decide)]
    decide
  · have h2 := c5_freshness_classification parseTs0 0 rowX
    exact (h2.2.1 0 (by decide)).mpr (by decide)

/-- Claim C7: when the latest stored record for the subject is fresh,
`get_latest_data` returns exactly that cached record's fields with no
staleness note, makes zero `fetch_profile` calls, and leaves the store (and
all other state) unchanged. -/
theorem c7_fresh_serves_cache (username : String) (parseTs : String → Option Int)
    (nowEpoch : Int) (o : Oracle) (now : Nat) (nowStr : String)
    (cm : CredentialManager) (ls : LoaderState) (db : List MetricsRow)
    (r : MetricsRow) (t : Int)
    (hlatest : get_latest_metrics db username = some r)
    (hparse : parseTs r.collection_date = some t)
    (hfresh : nowEpoch - t < (CACHE_FRESHNESS_THRESHOLD : Int)) :
    get_latest_data username parseTs nowEpoch o now nowStr cm ls db
      = ⟨.cached username r.followers_count r.posts_count r.recent_posts_count
            r.collection_date none, ⟨cm, ls, db⟩, 0⟩ := by
  have hnr : needsRefresh (some r) parseTs nowEpoch = false := by
    rw [needsRefresh, hparse]
    simp [hfresh]
  rw [get_latest_data]
  simp only [hlatest, hnr]
  simp

/-- Claim C7 witness: a 10-minute-old record with the 15-minute threshold is
served from cache with no fetch and no store append. -/
theorem c7_witness :
    get_latest_data "x" parseTs0 (10 * 60) oracleConnErr 1000 ts0 cmAB ⟨none⟩ [rowX]
      = ⟨.cached "x" rowX.followers_count rowX.posts_count rowX.recent_posts_count
            rowX.collection_date none, ⟨cmAB, ⟨none⟩, [rowX]⟩, 0⟩ :=
  c7_fresh_serves_cache "x" parseTs0 (10 * 60) oracleConnErr 1000 ts0 cmAB ⟨none⟩
    [rowX] rowX 0 (by decide) (by decide) (by decide)

/-- Claim C4: when a refresh is triggered and every attempt fails while a
cached record exists, `get_latest_data` returns exactly the cached record's
fields, marked stale by the fallback note (the code's staleness marker,
instagram_api.py line 308), and returns normally instead of raising. -/
theorem c4_stale_fallback (username : String) (parseTs : String → Option Int)
    (nowEpoch : Int) (o : Oracle) (now : Nat) (nowStr : String)
    (cm : CredentialManager) (ls : LoaderState) (db : List MetricsRow)
    (r : MetricsRow)
    (hlatest : get_latest_metrics db username = some r)
    (hstale : needsRefresh (some r) parseTs nowEpoch = true)
    (hfail : (refresh_metrics_data username o now nowStr ⟨cm, ls, db⟩).success = false) :
    (get_latest_data username parseTs nowEpoch o now nowStr cm ls db).response
      = .cached username r.followers_count r.posts_count r.recent_posts_count
          r.collection_date (some fallbackNote) := by
  rw [get_latest_data]
  simp only [hlatest, hstale, if_true]
  simp [hfail]

/-- Claim C4 witness: a stale record plus a refresh that always fails with
connection errors yields the cached fields with the fallback note. -/
theorem c4_witness :
    (get_latest_data "x" parseTs0 (20 * 60) oracleConnErr 1000 ts0 cmAB ⟨none⟩
        [rowX]).response
      = .cached "x" rowX.followers_count rowX.posts_count rowX.recent_posts_count
          rowX.collection_date (some fallbackNote) :=
  c4_stale_fallback "x" parseTs0 (20 * 60) oracleConnErr 1000 ts0 cmAB ⟨none⟩ [rowX]
    rowX (by decide) (by decide)
    (by simp [refresh_metrics_data, refreshLoop, get_loader, get_current_credentials,
          rotateCredential, availableCredentials, oracleConnErr, cmAB, credA, credB,
          ROTATION_INTERVAL, ts0])

theorem mem_of_get?_eq_some : ∀ (l : List InstagramCredential) (i : Nat)
    (c : InstagramCredential), l.get? i = some c → c ∈ l := by
  intro l
  induction l with
  | nil => intro i c h; cases i <;> simp [List.get?] at h
  | cons x xs ih =>
    intro i c h
    cases i with
    | zero =>
      simp [List.get?] at h
      exact h ▸ List.mem_cons_self x xs
    | succ j =>
      simp only [List.get?] at h
      exact List.mem_cons_of_mem x (ih j c h)

/-- Claim C6: for a pool of at least two credentials, a successful forced
rotation always moves to a credential different from the previous current
one (the candidate list excludes the current credential whenever more than
one is loaded), and it reports that a rotation occurred; the new credential
is drawn from the loaded pool. -/
theorem c6_forced_rotation_distinct (cm : CredentialManager)
    (c : InstagramCredential) (now pick : Nat) (cm' : CredentialManager) (b : Bool)
    (hlen : 2 ≤ cm.credentials.length)
    (hcur : cm.current_credential = some c)
    (hrot : rotateCredential cm true now pick = some (cm', b)) :
    cm'.current_credential ≠ some c ∧ b = true
    ∧ ∃ c', cm'.current_credential = some c' ∧ c' ∈ cm.credentials := by
  rw [rotateCredential] at hrot
  simp only [Bool.not_true, Bool.false_and, if_false] at hrot
  have hgt : cm.credentials.length > 1 := by omega
  rw [availableCredentials, if_pos hgt] at hrot
  cases hget : (cm.credentials.filter (fun x => decide (some x ≠ cm.current_credential))).get?
      (pick % (cm.credentials.filter (fun x => decide (some x ≠ cm.current_credential))).length) with
  | none => rw [hget] at hrot; cases hrot
  | some cnew =>
    rw [hget] at hrot
    have hmem := mem_of_get?_eq_some _ _ _ hget
    have hfil := List.mem_filter.mp hmem
    have hne : some cnew ≠ cm.current_credential := by
      have := hfil.2
      simpa using this
    injection hrot with hrot'
    injection hrot' with h1 h2
    subst h1
    refine ⟨?_, h2.symm, cnew, rfl, hfil.1⟩
    rw [hcur] at hne
    simpa using hne

/-- Claim C6 witness: a concrete forced rotation away from alice lands on
bob. -/
theorem c6_witness :
    (⟨[credA, credB], some credB, 5000⟩ : CredentialManager).current_credential
        ≠ some credA
    ∧ true = true
    ∧ ∃ c', (⟨[credA, credB], some credB, 5000⟩ : CredentialManager).current_credential
        = some c' ∧ c' ∈ cmAB.credentials :=
  c6_forced_rotation_distinct cmAB credA 5000 0 ⟨[credA, credB], some credB, 5000⟩ true
    (by decide) rfl (by decide)

theorem rotate_keeps_isSome (cm : CredentialManager) (f : Bool) (now pick : Nat)
    (cm' : CredentialManager) (b : Bool)
    (hrot : rotateCredential cm f now pick = some (cm', b))
    (hsome : cm.current_credential.isSome = true) :
    cm'.current_credential.isSome = true := by
  rw [rotateCredential] at hrot
  by_cases h : (!f && decide (now - cm.last_rotation_time < ROTATION_INTERVAL)) = true
  · rw [if_pos h] at hrot
    injection hrot with hrot'
    injection hrot' with h1 _
    rw [← h1]
    exact hsome
  · simp only [if_neg h] at hrot
    cases hget : (availableCredentials cm).get?
        (pick % (availableCredentials cm).length) with
    | none => rw [hget] at hrot; cases hrot
    | some cnew =>
      rw [hget] at hrot
      injection hrot with hrot'
      injection hrot' with h1 _
      rw [← h1]
      rfl

theorem get_current_ok_of_some (cm : CredentialManager) (c : InstagramCredential)
    (now pick : Nat) (hcur : cm.current_credential = some c)
    (hcond : now - cm.last_rotation_time < ROTATION_INTERVAL
      ∨ ∃ c', c' ∈ cm.credentials ∧ some c' ≠ cm.current_credential) :
    (get_current_credentials cm now pick).isOk = true := by
  rw [get_current_credentials, rotateCredential]
  by_cases hdue : now - cm.last_rotation_time < ROTATION_INTERVAL
  · have hd : decide (now - cm.last_rotation_time < ROTATION_INTERVAL) = true :=
      decide_eq_true hdue
    simp only [Bool.not_false, Bool.true_and, hd, if_true]
    simp [hcur, CredResult.isOk]
  · have hd : decide (now - cm.last_rotation_time < ROTATION_INTERVAL) = false :=
      decide_eq_false hdue
    simp only [Bool.not_false, Bool.true_and, hd, Bool.false_eq_true, if_false]
    rcases hcond with h | ⟨c', hc', hne⟩
    · exact absurd h hdue
    · have hpos : 0 < (availableCredentials cm).length := by
        rw [availableCredentials]
        by_cases hgt : cm.credentials.length > 1
        · rw [if_pos hgt]
          have : c' ∈ cm.credentials.filter (fun x => decide (some x ≠ cm.current_credential)) :=
            List.mem_filter.mpr ⟨hc', by simpa using hne⟩
          exact List.length_pos.mpr (fun he => by rw [he] at this; cases this)
        · rw [if_neg hgt]
          exact List.length_pos.mpr (fun he => by rw [he] at hc'; cases hc')
      have hlt : pick % (availableCredentials cm).length < (availableCredentials cm).length :=
        Nat.mod_lt _ hpos
      cases hget : (availableCredentials cm).get?
          (pick % (availableCredentials cm).length) with
      | none =>
        rw [List.get?_eq_none] at hget
        omega
      | some cnew => simp [hget, CredResult.isOk]

theorem init_current_isSome (creds : List InstagramCredential) (now pick : Nat)
    (hne : creds ≠ []) :
    ∃ cm, initCredentialManager creds now pick = some cm
      ∧ cm.current_credential.isSome = true := by
  rw [initCredentialManager]
  have hemp : creds.isEmpty = false := by
    cases creds with
    | nil => exact absurd rfl hne
    | cons x xs => rfl
  rw [hemp]
  simp only [Bool.false_eq_true, if_false]
  rw [rotateCredential]
  simp only [Bool.not_true, Bool.false_and, if_false]
  have havail : availableCredentials ⟨creds, none, 0⟩ = creds := by
    rw [availableCredentials]
    by_cases hgt : creds.length > 1
    · simp only [hgt, if_true]
      simp
    · simp only [hgt, if_false]
  rw [havail]
  have hpos : 0 < creds.length := by
    cases creds with
    | nil => exact absurd rfl hne
    | cons x xs => simp
  have hlt : pick % creds.length < creds.length := Nat.mod_lt _ hpos
  cases hget : creds.get? (pick % creds.length) with
  | none =>
    rw [List.get?_eq_none] at hget
    omega
  | some cnew => exact ⟨_, rfl, rfl⟩

/-- Claim C9 (amended): a `CredentialManager` constructed from a non-empty
credential list always holds a non-`None` current credential, every
successful rotation keeps it non-`None`, and `get_current_credentials` never
fails by dereferencing a missing credential; it returns the current
credential's (username, password) pair whenever rotation is not yet due or
some loaded credential differs from the current one.  (It can still fail —
with `random.choice` on an empty candidate list — when rotation is due and
every loaded credential equals the current one.) -/
theorem c9_amended :
    (∀ creds now pick, creds ≠ ([] : List InstagramCredential) →
      ∃ cm, initCredentialManager creds now pick = some cm
        ∧ cm.current_credential.isSome = true)
    ∧ (∀ cm f now pick cm' b, rotateCredential cm f now pick = some (cm', b) →
        cm.current_credential.isSome = true → cm'.current_credential.isSome = true)
    ∧ (∀ cm now pick, cm.current_credential.isSome = true →
        (get_current_credentials cm now pick).isNoneDeref = false)
    ∧ (∀ cm c now pick, cm.current_credential = some c →
        (now - cm.last_rotation_time < ROTATION_INTERVAL
          ∨ ∃ c', c' ∈ cm.credentials ∧ some c' ≠ cm.current_credential) →
        (get_current_credentials cm now pick).isOk = true) := by
  refine ⟨init_current_isSome, rotate_keeps_isSome, ?_, get_current_ok_of_some⟩
  intro cm now pick hsome
  rw [get_current_credentials]
  cases hrot : rotateCredential cm false now pick with
  | none => rfl
  | some p =>
    obtain ⟨cm2, b⟩ := p
    have h2 := rotate_keeps_isSome cm false now pick cm2 b hrot hsome
    cases hc : cm2.current_credential with
    | none => rw [hc] at h2; cases h2
    | some c => simp [hc, CredResult.isNoneDeref]

/-- Claim C9 witness: with distinct credentials and a pending interval,
`get_current_credentials` returns a pair and does not dereference `None`. -/
theorem c9_witness :
    (get_current_credentials cmAB 1000 0).isOk = true
    ∧ (get_current_credentials cmAB 1000 0).isNoneDeref = false := by
  have h := c9_amended
  exact ⟨h.2.2.2 cmAB credA 1000 0 rfl (Or.inl (by decide)),
         h.2.2.1 cmAB 1000 0 rfl⟩

/-- Claim C9 (counterexample): a manager successfully constructed from a CSV
with the same credential row twice (dataclass equality makes the entries
equal); once the rotation interval has elapsed, `get_current_credentials`
fails (the candidate list excludes everything equal to the current
credential, leaving `random.choice([])` to raise `IndexError`), so it does
NOT always succeed in returning a (username, password) pair. -/
theorem c9_counterexample :
    initCredentialManager [credA, credA] 0 0 = some cmDup
    ∧ cmDup.credentials ≠ [] ∧ cmDup.current_credential.isSome = true
    ∧ (get_current_credentials cmDup 1800 0).isOk = false := by decide

theorem memcmp_irrefl (l : List Nat) : memcmpLt l l = false := by
  induction l with
  | nil => rfl
  | cons a as ih => simp [memcmpLt, ih]

theorem memcmp_cons_iff (x y : Nat) (xs ys : List Nat) :
    memcmpLt (x :: xs) (y :: ys) = true ↔ (x < y ∨ (x = y ∧ memcmpLt xs ys = true)) := by
  rw [memcmpLt]
  split_ifs with h1 h2
  · simp [h1]
  · simp only [Bool.false_eq_true, false_iff]
    rintro (h | ⟨h, -⟩) <;> omega
  · have hxy : x = y := by omega
    simp [hxy]

theorem memcmp_eq_of_not_lt : ∀ (a b : List Nat), memcmpLt a b = false →
    memcmpLt b a = false → a = b := by
  intro a
  induction a with
  | nil =>
    intro b h1 _
    cases b with
    | nil => rfl
    | cons y ys => simp [memcmpLt] at h1
  | cons x xs ih =>
    intro b h1 h2
    cases b with
    | nil => simp [memcmpLt] at h2
    | cons y ys =>
      rcases Nat.lt_trichotomy x y with h | h | h
      · rw [memcmpLt, if_pos h] at h1
        cases h1
      · subst h
        rw [memcmpLt, if_neg (lt_irrefl x), if_neg (lt_irrefl x)] at h1 h2
        rw [ih ys h1 h2]
      · rw [memcmpLt, if_pos h] at h2
        cases h2

theorem memcmp_trans : ∀ (a b c : List Nat), memcmpLt a b = true →
    memcmpLt b c = true → memcmpLt a c = true := by
  intro a
  induction a with
  | nil =>
    intro b c h1 h2
    cases b with
    | nil => exact h2
    | cons y ys =>
      cases c with
      | nil => simp [memcmpLt] at h2
      | cons z zs => rfl
  | cons x xs ih =>
    intro b c h1 h2
    cases b with
    | nil => simp [memcmpLt] at h1
    | cons y ys =>
      cases c with
      | nil => simp [memcmpLt] at h2
      | cons z zs =>
        rw [memcmp_cons_iff] at h1 h2 ⊢
        rcases h1 with h1 | ⟨e1, t1⟩
        · rcases h2 with h2 | ⟨e2, t2⟩
          · exact Or.inl (by omega)
          · exact Or.inl (by omega)
        · rcases h2 with h2 | ⟨e2, t2⟩
          · exact Or.inl (by omega)
          · exact Or.inr ⟨by omega, ih ys zs t1 t2⟩

theorem memcmp_append : ∀ (as bs cs ds : List Nat), as.length = bs.length →
    memcmpLt (as ++ cs) (bs ++ ds)
      = if as = bs then memcmpLt cs ds else memcmpLt as bs := by
  intro as
  induction as with
  | nil =>
    intro bs cs ds h
    cases bs with
    | nil => simp
    | cons b bs => simp at h
  | cons a as ih =>
    intro bs cs ds h
    cases bs with
    | nil => simp at h
    | cons b bs =>
      simp only [List.cons_append]
      rw [memcmpLt]
      rcases Nat.lt_trichotomy a b with hab | hab | hab
      · rw [if_pos hab]
        have hne : (a :: as) ≠ (b :: bs) := by
          intro he
          injection he with h1 _
          omega
        rw [if_neg hne, memcmpLt, if_pos hab]
      · subst hab
        rw [if_neg (lt_irrefl a), if_neg (lt_irrefl a),
            ih bs cs ds (by simpa using h)]
        by_cases he : as = bs
        · subst he
          simp [memcmpLt]
        · have hne : (a :: as) ≠ (a :: bs) := by
            intro hh
            injection hh with _ h2
            exact he h2
          rw [if_neg he, if_neg hne, memcmpLt, if_neg (lt_irrefl a),
              if_neg (lt_irrefl a)]
      · rw [if_neg (by omega : ¬ a < b), if_pos hab]
        have hne : (a :: as) ≠ (b :: bs) := by
          intro he
          injection he with h1 _
          omega
        rw [if_neg hne, memcmpLt, if_neg (by omega : ¬ a < b), if_pos hab]

theorem pad2_lt_iff : ∀ m, m < 100 → ∀ n, n < 100 →
    (memcmpLt (pad2 m) (pad2 n) = true ↔ m < n) := by
  intro m hm n hn
  simp only [pad2, memcmpLt]
  split_ifs with h1 h2 h3 h4 <;> simp <;> omega

theorem pad2_eq_iff : ∀ m, m < 100 → ∀ n, n < 100 →
    (pad2 m = pad2 n ↔ m = n) := by
  intro m hm n hn
  simp only [pad2, List.cons.injEq, and_true]
  omega

theorem pad2_length (n : Nat) : (pad2 n).length = 2 := rfl

theorem pad4_lt_iff (m n : Nat) (hm : m < 10000) (hn : n < 10000) :
    (memcmpLt (pad4 m) (pad4 n) = true ↔ m < n) := by
  rw [pad4, pad4, memcmp_append _ _ _ _ (by rw [pad2_length, pad2_length])]
  by_cases h : pad2 (m / 100) = pad2 (n / 100)
  · rw [if_pos h]
    have hd : m / 100 = n / 100 := (pad2_eq_iff _ (by omega) _ (by omega)).mp h
    rw [pad2_lt_iff _ (by omega) _ (by omega)]
    omega
  · rw [if_neg h]
    have hd : ¬ m / 100 = n / 100 := fun he => h (by rw [he])
    rw [pad2_lt_iff _ (by omega) _ (by omega)]
    omega

theorem pad4_eq_iff (m n : Nat) (hm : m < 10000) (hn : n < 10000) :
    (pad4 m = pad4 n ↔ m = n) := by
  constructor
  · intro h
    rw [pad4, pad4] at h
    have := List.append_inj h (by rw [pad2_length, pad2_length])
    have h1 := (pad2_eq_iff _ (by omega) _ (by omega)).mp this.1
    have h2 := (pad2_eq_iff _ (by omega) _ (by omega)).mp this.2
    omega
  · intro h
    rw [h]

theorem memcmp_block2 (x y sep : Nat) (hx : x < 100) (hy : y < 100)
    (r1 r2 : List Nat) :
    (memcmpLt (pad2 x ++ sep :: r1) (pad2 y ++ sep :: r2) = true ↔
      (x < y ∨ (x = y ∧ memcmpLt r1 r2 = true))) := by
  rw [memcmp_append _ _ _ _ (by rw [pad2_length, pad2_length])]
  by_cases h : pad2 x = pad2 y
  · rw [if_pos h]
    have he : x = y := (pad2_eq_iff _ hx _ hy).mp h
    rw [memcmp_cons_iff]
    simp [he]
  · rw [if_neg h]
    have hne : x ≠ y := fun hh => h (by rw [hh])
    rw [pad2_lt_iff _ hx _ hy]
    constructor
    · exact fun hlt => Or.inl hlt
    · rintro (hlt | ⟨he, -⟩)
      · exact hlt
      · exact absurd he hne

theorem memcmp_block4 (x y sep : Nat) (hx : x < 10000) (hy : y < 10000)
    (r1 r2 : List Nat) :
    (memcmpLt (pad4 x ++ sep :: r1) (pad4 y ++ sep :: r2) = true ↔
      (x < y ∨ (x = y ∧ memcmpLt r1 r2 = true))) := by
  rw [memcmp_append _ _ _ _ (by rw [pad4, pad4]; simp [pad2_length])]
  by_cases h : pad4 x = pad4 y
  · rw [if_pos h]
    have he : x = y := (pad4_eq_iff _ _ hx hy).mp h
    rw [memcmp_cons_iff]
    simp [he]
  · rw [if_neg h]
    have hne : x ≠ y := fun hh => h (by rw [hh])
    rw [pad4_lt_iff _ _ hx hy]
    constructor
    · exact fun hlt => Or.inl hlt
    · rintro (hlt | ⟨he, -⟩)
      · exact hlt
      · exact absurd he hne

theorem fmtBytes_lt_iff (a b : DateTime) (ha : ValidDT a) (hb : ValidDT b) :
    (memcmpLt (fmtBytes a) (fmtBytes b) = true ↔ dtLt a b) := by
  obtain ⟨ha1, ha2, ha3, ha4, ha5, ha6, ha7, ha8⟩ := ha
  obtain ⟨hb1, hb2, hb3, hb4, hb5, hb6, hb7, hb8⟩ := hb
  rw [fmtBytes, fmtBytes,
      memcmp_block4 a.year b.year 45 (by omega) (by omega) _ _,
      memcmp_block2 a.month b.month 45 (by omega) (by omega) _ _,
      memcmp_block2 a.day b.day 32 (by omega) (by omega) _ _,
      memcmp_block2 a.hour b.hour 58 (by omega) (by omega) _ _,
      memcmp_block2 a.minute b.minute 58 (by omega) (by omega) _ _,
      pad2_lt_iff a.second (by omega) b.second (by omega), dtLt]

theorem char_roundtrip : ∀ x < 60, (Char.ofNat x).toNat = x := by decide

theorem fmtBytes_bound (d : DateTime) (hd : ValidDT d) :
    ∀ x ∈ fmtBytes d, x < 60 := by
  obtain ⟨h1, h2, h3, h4, h5, h6, h7, h8⟩ := hd
  intro x hx
  simp only [fmtBytes, pad4, pad2, List.mem_append, List.mem_cons,
    List.mem_singleton, List.not_mem_nil, or_false] at hx
  omega

theorem strBytes_fmtDT (d : DateTime) (hd : ValidDT d) :
    strBytes (fmtDT d) = fmtBytes d := by
  show ((fmtBytes d).map Char.ofNat).map Char.toNat = fmtBytes d
  rw [List.map_map]
  conv_rhs => rw [← List.map_id (fmtBytes d)]
  apply List.map_congr_left
  intro x hx
  exact char_roundtrip x (fmtBytes_bound d hd x hx)

theorem strLt_fmtDT_iff (a b : DateTime) (ha : ValidDT a) (hb : ValidDT b) :
    (strLt (fmtDT a) (fmtDT b) = true ↔ dtLt a b) := by
  rw [strLt, strBytes_fmtDT a ha, strBytes_fmtDT b hb]
  exact fmtBytes_lt_iff a b ha hb

theorem strLt_trans (s t u : String) (h1 : strLt s t = true) (h2 : strLt t u = true) :
    strLt s u = true :=
  memcmp_trans _ _ _ h1 h2

theorem fold_latest_spec : ∀ (rows : List MetricsRow) (best : MetricsRow),
    ∃ m, rows.foldl latestStep (some best) = some m ∧ (m = best ∨ m ∈ rows)
      ∧ strLt m.collection_date best.collection_date = false
      ∧ ∀ r ∈ rows, strLt m.collection_date r.collection_date = false := by
  intro rows
  induction rows with
  | nil =>
    intro best
    exact ⟨best, rfl, Or.inl rfl, memcmp_irrefl _, by simp⟩
  | cons r rows ih =>
    intro best
    simp only [List.foldl_cons]
    by_cases h : strLt best.collection_date r.collection_date = true
    · have hstep : latestStep (some best) r = some r := by rw [latestStep, if_pos h]
      rw [hstep]
      obtain ⟨m, hm, hmem, hmr, hall⟩ := ih r
      refine ⟨m, hm, ?_, ?_, ?_⟩
      · rcases hmem with he | hmem
        · exact Or.inr (he ▸ List.mem_cons_self r rows)
        · exact Or.inr (List.mem_cons_of_mem r hmem)
      · cases hx : strLt m.collection_date best.collection_date with
        | false => rfl
        | true =>
          have := strLt_trans _ _ _ hx h
          rw [hmr] at this
          cases this
      · intro x hx
        rcases List.mem_cons.mp hx with he | hx
        · rw [he]
          exact hmr
        · exact hall x hx
    · have hb : strLt best.collection_date r.collection_date = false := by
        cases hx : strLt best.collection_date r.collection_date with
        | false => rfl
        | true => exact absurd hx h
      have hstep : latestStep (some best) r = some best := by
        rw [latestStep, if_neg (by rw [hb]; simp)]
      rw [hstep]
      obtain ⟨m, hm, hmem, hmb, hall⟩ := ih best
      refine ⟨m, hm, ?_, hmb, ?_⟩
      · rcases hmem with he | hmem
        · exact Or.inl he
        · exact Or.inr (List.mem_cons_of_mem r hmem)
      · intro x hx
        rcases List.mem_cons.mp hx with he | hx
        · subst he
          cases hrb : strLt x.collection_date best.collection_date with
          | true =>
            cases hmx : strLt m.collection_date x.collection_date with
            | false => rfl
            | true =>
              have := strLt_trans _ _ _ hmx hrb
              rw [hmb] at this
              cases this
          | false =>
            have heq := memcmp_eq_of_not_lt _ _ hb hrb
            show memcmpLt (strBytes m.collection_date) (strBytes x.collection_date) = false
            rw [← heq]
            exact hmb
        · exact hall x hx

theorem get_latest_metrics_spec (db : List MetricsRow) (u : String) (r0 : MetricsRow)
    (h0 : r0 ∈ db) (hu : r0.username = u) :
    ∃ m, get_latest_metrics db u = some m ∧ m ∈ db ∧ m.username = u
      ∧ ∀ r ∈ db, r.username = u → strLt m.collection_date r.collection_date = false := by
  rw [get_latest_metrics]
  have hmem : r0 ∈ db.filter (fun r => r.username == u) :=
    List.mem_filter.mpr ⟨h0, by simp [hu]⟩
  cases hf : db.filter (fun r => r.username == u) with
  | nil =>
    rw [hf] at hmem
    cases hmem
  | cons rh rt =>
    simp only [List.foldl_cons]
    have hstep : latestStep none rh = some rh := rfl
    rw [hstep]
    obtain ⟨m, hm, hmem2, hmb, hall⟩ := fold_latest_spec rt rh
    have hmfil : m ∈ db.filter (fun r => r.username == u) := by
      rw [hf]
      rcases hmem2 with he | hmem2
      · exact he ▸ List.mem_cons_self rh rt
      · exact List.mem_cons_of_mem rh hmem2
    have hmdb := List.mem_filter.mp hmfil
    refine ⟨m, hm, hmdb.1, by simpa using hmdb.2, ?_⟩
    intro r hr hru
    have hrfil : r ∈ db.filter (fun x => x.username == u) :=
      List.mem_filter.mpr ⟨hr, by simp [hru]⟩
    rw [hf] at hrfil
    rcases List.mem_cons.mp hrfil with he | hrt
    · rw [he]
      exact hmb
    · exact hall r hrt

/-- Claim C8: the store is append-only (a `store_metrics` call preserves every
existing row and appends exactly one), `get_latest_metrics` returns, for every
subject with at least one stored record, a record of that subject whose
`collection_date` is maximal in the string (BINARY-collation) order used by
`ORDER BY collection_date DESC`, and on strings produced by
`strftime('%Y-%m-%d %H:%M:%S')` that string order coincides with
chronological order. -/
theorem c8_latest_max_append_only (db : List MetricsRow) (u : String)
    (r0 : MetricsRow) (h0 : r0 ∈ db) (hu : r0.username = u) :
    (∃ m, get_latest_metrics db u = some m ∧ m ∈ db ∧ m.username = u
      ∧ ∀ r ∈ db, r.username = u → strLt m.collection_date r.collection_date = false)
    ∧ (∀ un f p rp ts,
        (∀ r ∈ db, r ∈ (store_metrics db un f p rp ts).1)
        ∧ (store_metrics db un f p rp ts).1
            = db ++ [⟨un, f, p, rp, ts⟩])
    ∧ (∀ d1 d2, ValidDT d1 → ValidDT d2 →
        (strLt (fmtDT d1) (fmtDT d2) = true ↔ dtLt d1 d2)) := by
  refine ⟨get_latest_metrics_spec db u r0 h0 hu, ?_, strLt_fmtDT_iff⟩
  intro un f p rp ts
  exact ⟨fun r hr => List.mem_append.mpr (Or.inl hr), rfl⟩

/-- Claim C8 witness: in a two-row store the chronologically newer row is
returned, and the format order agrees with chronological order on two
concrete timestamps. -/
theorem c8_witness :
    (∃ m, get_latest_metrics [rowA, rowB] "x" = some m ∧ m ∈ [rowA, rowB]
      ∧ m.username = "x"
      ∧ ∀ r ∈ [rowA, rowB], r.username = "x" →
          strLt m.collection_date r.collection_date = false)
    ∧ (∀ un f p rp ts,
        (∀ r ∈ [rowA, rowB], r ∈ (store_metrics [rowA, rowB] un f p rp ts).1)
        ∧ (store_metrics [rowA, rowB] un f p rp ts).1
            = [rowA, rowB] ++ [⟨un, f, p, rp, ts⟩])
    ∧ (∀ d1 d2, ValidDT d1 → ValidDT d2 →
        (strLt (fmtDT d1) (fmtDT d2) = true ↔ dtLt d1 d2)) :=
  c8_latest_max_append_only [rowA, rowB] "x" rowA (List.mem_cons_self rowA [rowB]) rfl

end InstaHW
